import Mathlib

/-!
Shallow embedding of the multi-modal product search engine
(`src/core` of the repository: RRF fusion, score combination,
FAISS-backed vector repositories and the catalog orchestrator),
together with theorems settling the specification claims.

Conventions:
* Python `float` scores and vectors are modelled as exact rationals (`ℚ`);
  all score arithmetic in the source is plain `+ - * /`, faithfully mirrored.
* Python `dict` (insertion-ordered, unique keys) is modelled as an
  association list where assignment to an existing key updates the entry in
  place and assignment to a fresh key appends (`PyDict` below).
* Python `sorted(..., key=lambda x: x[1], reverse=True)` is a stable sort by
  descending second component; it is modelled by `List.insertionSort` with
  the non-strict relation `a.2 ≥ b.2`, which is stable in exactly the same
  sense (equal keys keep their original relative order).
* Exceptions are modelled with `Except PyErr`; functions that mutate
  repository state before raising return the mutated state alongside the
  error.
-/

/-- The Python exceptions that appear in the modelled code paths. -/
inductive PyErr where
  /-- `raise ValueError(msg)` -/
  | valueError (msg : String)
  /-- `NameError`: the body reads a name that is defined nowhere. -/
  | nameError (missing : String)
  /-- `UnboundLocalError`: a local variable is read before assignment. -/
  | unboundLocal (missing : String)
  /-- `raise RuntimeError(msg)` -/
  | runtimeError (msg : String)
  /-- `KeyError` from a failed dict subscript. -/
  | keyError
deriving Repr, DecidableEq

namespace PyDict

variable {α : Type} {β : Type} [DecidableEq α]

/-- First binding for key `k`, as in Python `d[k]` / `d.get(k)`. -/
def get? : List (α × β) → α → Option β
  | [], _ => none
  | (k', v) :: rest, k => if k' = k then some v else get? rest k

/-- Python `k in d`. -/
def contains (d : List (α × β)) (k : α) : Bool :=
  (get? d k).isSome

/-- Python `d[k] = v`: update in place if the key exists, else append. -/
def insert : List (α × β) → α → β → List (α × β)
  | [], k, v => [(k, v)]
  | (k', v') :: rest, k, v =>
      if k' = k then (k, v) :: rest else (k', v') :: insert rest k v

/-- Python `del d[k]` (keys are unique in every state we build). -/
def erase (d : List (α × β)) (k : α) : List (α × β) :=
  d.filter (fun p => p.1 ≠ k)

/-- Python `list(d.keys())`. -/
def keys (d : List (α × β)) : List α := d.map Prod.fst

/-- Python `list(d.values())`. -/
def values (d : List (α × β)) : List β := d.map Prod.snd

/-- Python `len(d)`. -/
def size (d : List (α × β)) : Nat := d.length

theorem get?_insert (d : List (α × β)) (k : α) (v : β) (j : α) :
    get? (insert d k v) j = if j = k then some v else get? d j := by
  induction d with
  | nil =>
    rcases eq_or_ne j k with rfl | hj
    · simp [insert, get?]
    · simp [insert, get?, hj, hj.symm]
  | cons p rest ih =>
    obtain ⟨k', v'⟩ := p
    by_cases hk : k' = k
    · subst hk
      rcases eq_or_ne j k' with rfl | hj
      · simp [insert, get?]
      · simp [insert, get?, hj, hj.symm]
    · by_cases hj : k' = j
      · subst hj
        simp [insert, get?, hk]
      · simp [insert, get?, hk, hj, ih]

theorem contains_insert (d : List (α × β)) (k : α) (v : β) (j : α) :
    contains (insert d k v) j = (j = k ∨ contains d j) := by
  by_cases hj : j = k <;> simp [contains, get?_insert, hj]

theorem length_insert (d : List (α × β)) (k : α) (v : β) :
    (insert d k v).length = if contains d k then d.length else d.length + 1 := by
  induction d with
  | nil => simp [insert, contains, get?]
  | cons p rest ih =>
    obtain ⟨k', v'⟩ := p
    by_cases hk : k' = k
    · subst hk; simp [insert, contains, get?]
    · have hcc : contains ((k', v') :: rest) k = contains rest k := by
        simp [contains, get?, hk]
      by_cases hc : contains rest k <;> simp [insert, hk, hcc, hc, ih]

theorem keys_insert (d : List (α × β)) (k : α) (v : β) :
    keys (insert d k v) = if contains d k then keys d else keys d ++ [k] := by
  induction d with
  | nil => simp [insert, contains, get?, keys]
  | cons p rest ih =>
    obtain ⟨k', v'⟩ := p
    by_cases hk : k' = k
    · subst hk; simp [insert, contains, get?, keys]
    · have hcc : contains ((k', v') :: rest) k = contains rest k := by
        simp [contains, get?, hk]
      by_cases hc : contains rest k <;>
        simp [insert, keys, hk, hcc, hc] at ih ⊢ <;> exact ih

theorem mem_of_mem_insert {d : List (α × β)} {k : α} {v : β} {p : α × β}
    (hp : p ∈ insert d k v) : p ∈ d ∨ p = (k, v) := by
  induction d with
  | nil => simpa [insert] using hp
  | cons q rest ih =>
    obtain ⟨k', v'⟩ := q
    by_cases hk : k' = k
    · subst hk
      rcases (by simpa [insert] using hp) with h | h
      · right; simpa using h
      · left; exact List.mem_cons_of_mem _ h
    · rcases (by simpa [insert, hk] using hp) with h | h
      · left; simp [h]
      · rcases ih h with h' | h'
        · left; exact List.mem_cons_of_mem _ h'
        · right; exact h'

end PyDict

/-- Python `str.strip()` (whitespace from both ends), written over the
character list so that it evaluates. -/
def pyStrip (s : String) : String :=
  ⟨((s.data.dropWhile Char.isWhitespace).reverse.dropWhile Char.isWhitespace).reverse⟩

/-- `src/core/models/product.py`: the `Product` dataclass (id, title,
description, optional image url); `__post_init__` rejects blank fields. -/
structure Product where
  id : String
  title : String
  description : String
  imageUrl : Option String := none
deriving Repr, DecidableEq

namespace Product

/-- `Product.get_combined_text`: `f"{self.title} {self.description}"`. -/
def getCombinedText (p : Product) : String :=
  p.title ++ " " ++ p.description

/-- The `__post_init__` / `ProductCreate` validation: id, title and
description must be non-blank after strip. -/
def validFields (id title description : String) : Bool :=
  !(pyStrip id = "") && !(pyStrip title = "") && !(pyStrip description = "")

end Product

/-! ## RRF fusion (`src/core/services/rrf_service.py`) -/

namespace RRF

/-- One `rrf_scores[doc_id] += 1/(k + rank)` step of
`RRFService.reciprocal_rank_fusion`: a missing key is first set to `0.0`. -/
def addScore (d : List (String × ℚ)) (docId : String) (c : ℚ) : List (String × ℚ) :=
  match PyDict.get? d docId with
  | some s => PyDict.insert d docId (s + c)
  | none => PyDict.insert (PyDict.insert d docId 0) docId (0 + c)

/-- The inner loop `for rank, (doc_id, _) in enumerate(ranked_list, start=1)`;
`r` is the rank of the head of the remaining suffix (starts at `1`). -/
def processList (k : ℚ) : List (String × ℚ) → Nat → List (String × ℚ) → List (String × ℚ)
  | d, _, [] => d
  | d, r, (docId, _) :: rest => processList k (addScore d docId (1 / (k + r))) (r + 1) rest

/-- The accumulated `rrf_scores` dict after the outer
`for list_idx, ranked_list in enumerate(ranked_lists)` loop. -/
def rrfScores (k : ℚ) (rankedLists : List (List (String × ℚ))) : List (String × ℚ) :=
  rankedLists.foldl (fun d l => processList k d 1 l) []

/-- The sort order of `sorted(rrf_scores.items(), key=lambda x: x[1], reverse=True)`:
descending by score, stable on ties. -/
def byScoreDesc (a b : String × ℚ) : Prop := b.2 ≤ a.2

instance : DecidableRel byScoreDesc := fun a b => inferInstanceAs (Decidable (b.2 ≤ a.2))

instance : IsTotal (String × ℚ) byScoreDesc := ⟨fun a b => le_total b.2 a.2⟩

instance : IsTrans (String × ℚ) byScoreDesc := ⟨fun _ _ _ h h' => le_trans h' h⟩

/-- `RRFService.reciprocal_rank_fusion(ranked_lists, k)`. -/
def reciprocalRankFusion (rankedLists : List (List (String × ℚ))) (k : ℚ) :
    List (String × ℚ) :=
  if rankedLists = [] then []
  else List.insertionSort byScoreDesc (rrfScores k rankedLists)

/-- Spec-side value: the `1/(k + rank)` contributions of `docId` inside one
ranked list whose head has rank `r`. -/
def listContribution (k : ℚ) (docId : String) : Nat → List (String × ℚ) → ℚ
  | _, [] => 0
  | r, (d, _) :: rest =>
      (if d = docId then 1 / (k + r) else 0) + listContribution k docId (r + 1) rest

/-- Spec-side value: the summed contribution of `docId` across all lists. -/
def totalScore (rankedLists : List (List (String × ℚ))) (k : ℚ) (docId : String) : ℚ :=
  (rankedLists.map (listContribution k docId 1)).sum

/-- Fold collecting ids in first-seen order. -/
def firstSeenFold (s : List String) (ids : List String) : List String :=
  ids.foldl (fun s i => if i ∈ s then s else s ++ [i]) s

/-- Spec-side list of product ids in first-seen input-list order (scanning the
lists in order, then each list front to back). -/
def firstSeenIds (rankedLists : List (List (String × ℚ))) : List String :=
  firstSeenFold [] (rankedLists.map (List.map Prod.fst)).flatten

/-- Score looked up in the accumulator dict, `0` when absent. -/
def getVal (d : List (String × ℚ)) (j : String) : ℚ :=
  (PyDict.get? d j).getD 0

theorem getVal_addScore (d : List (String × ℚ)) (id j : String) (c : ℚ) :
    getVal (addScore d id c) j = getVal d j + if j = id then c else 0 := by
  unfold addScore
  cases hd : PyDict.get? d id with
  | some s =>
    by_cases hj : j = id
    · subst hj; simp [getVal, PyDict.get?_insert, hd]
    · simp [getVal, PyDict.get?_insert, hj]
  | none =>
    by_cases hj : j = id
    · subst hj; simp [getVal, PyDict.get?_insert, hd]
    · simp [getVal, PyDict.get?_insert, hj]

theorem getVal_processList (k : ℚ) (j : String) :
    ∀ (l : List (String × ℚ)) (d : List (String × ℚ)) (r : Nat),
      getVal (processList k d r l) j = getVal d j + listContribution k j r l := by
  intro l
  induction l with
  | nil => intro d r; simp [processList, listContribution]
  | cons p rest ih =>
    intro d r
    obtain ⟨x, s⟩ := p
    have := ih (addScore d x (1 / (k + r))) (r + 1)
    rw [processList, this, getVal_addScore, listContribution]
    by_cases hx : x = j
    · subst hx; simp; ring
    · have hx' : ¬ j = x := fun h => hx h.symm
      simp [hx, hx']

theorem getVal_rrfScores (k : ℚ) (j : String) (rankedLists : List (List (String × ℚ))) :
    getVal (rrfScores k rankedLists) j = totalScore rankedLists k j := by
  have main : ∀ (ls : List (List (String × ℚ))) (d : List (String × ℚ)),
      getVal (ls.foldl (fun d l => processList k d 1 l) d) j
        = getVal d j + (ls.map (listContribution k j 1)).sum := by
    intro ls
    induction ls with
    | nil => intro d; simp
    | cons l rest ih =>
      intro d
      simp only [List.foldl_cons, List.map_cons, List.sum_cons]
      rw [ih, getVal_processList]
      ring
  have := main rankedLists []
  simpa [rrfScores, totalScore, getVal, PyDict.get?] using this

theorem contains_iff_mem_keys {α β : Type} [DecidableEq α] (d : List (α × β)) (k : α) :
    PyDict.contains d k = true ↔ k ∈ PyDict.keys d := by
  induction d with
  | nil => simp [PyDict.contains, PyDict.get?, PyDict.keys]
  | cons p rest ih =>
    obtain ⟨k', v'⟩ := p
    by_cases hk : k' = k <;>
      simp [PyDict.contains, PyDict.get?, PyDict.keys, hk] at ih ⊢
    · rw [← ih]
      constructor
      · intro h; right; exact h
      · rintro (h | h)
        · exact absurd h.symm hk
        · exact h

theorem get?_eq_of_mem_of_nodup {α β : Type} [DecidableEq α] {d : List (α × β)}
    (hnd : (PyDict.keys d).Nodup) {p : α × β} (hp : p ∈ d) :
    PyDict.get? d p.1 = some p.2 := by
  induction d with
  | nil => cases hp
  | cons q rest ih =>
    simp only [PyDict.keys, List.map_cons, List.nodup_cons] at hnd
    rcases List.mem_cons.mp hp with rfl | hmem
    · simp [PyDict.get?]
    · have hne : q.1 ≠ p.1 := by
        intro h
        exact hnd.1 (h ▸ List.mem_map_of_mem Prod.fst hmem)
      simpa [PyDict.get?, hne] using ih hnd.2 hmem

theorem keys_addScore (d : List (String × ℚ)) (id : String) (c : ℚ) :
    PyDict.keys (addScore d id c)
      = if PyDict.contains d id then PyDict.keys d else PyDict.keys d ++ [id] := by
  unfold addScore
  cases hd : PyDict.get? d id with
  | some s =>
    have hc : PyDict.contains d id = true := by simp [PyDict.contains, hd]
    simp [PyDict.keys_insert, hc]
  | none =>
    have hc : PyDict.contains d id = false := by simp [PyDict.contains, hd]
    have h1 : PyDict.contains (PyDict.insert d id 0) id = true := by
      simp [PyDict.contains_insert]
    rw [PyDict.keys_insert, if_pos h1, PyDict.keys_insert, if_neg (by simp [hc])]

theorem firstSeenFold_cons (s : List String) (x : String) (ids : List String) :
    firstSeenFold s (x :: ids) = firstSeenFold (if x ∈ s then s else s ++ [x]) ids := by
  simp [firstSeenFold]

theorem firstSeenFold_append (s : List String) (a b : List String) :
    firstSeenFold s (a ++ b) = firstSeenFold (firstSeenFold s a) b := by
  simp [firstSeenFold, List.foldl_append]

theorem keys_processList (k : ℚ) :
    ∀ (l : List (String × ℚ)) (d : List (String × ℚ)) (r : Nat),
      PyDict.keys (processList k d r l) = firstSeenFold (PyDict.keys d) (l.map Prod.fst) := by
  intro l
  induction l with
  | nil => intro d r; simp [processList, firstSeenFold]
  | cons p rest ih =>
    intro d r
    obtain ⟨x, s⟩ := p
    rw [processList, ih, List.map_cons, firstSeenFold_cons, keys_addScore]
    by_cases hc : PyDict.contains d x = true
    · rw [if_pos hc, if_pos ((contains_iff_mem_keys d x).mp hc)]
    · have : x ∉ PyDict.keys d := fun hm => hc ((contains_iff_mem_keys d x).mpr hm)
      rw [if_neg hc, if_neg this]

theorem keys_rrfScores (k : ℚ) (rankedLists : List (List (String × ℚ))) :
    PyDict.keys (rrfScores k rankedLists) = firstSeenIds rankedLists := by
  have main : ∀ (ls : List (List (String × ℚ))) (d : List (String × ℚ)),
      PyDict.keys (ls.foldl (fun d l => processList k d 1 l) d)
        = firstSeenFold (PyDict.keys d) (ls.map (List.map Prod.fst)).flatten := by
    intro ls
    induction ls with
    | nil => intro d; simp [firstSeenFold]
    | cons l rest ih =>
      intro d
      simp only [List.foldl_cons, List.map_cons, List.flatten_cons]
      rw [ih, keys_processList, firstSeenFold_append]
  simpa [rrfScores, PyDict.keys, firstSeenIds] using main rankedLists []

theorem nodup_firstSeenFold :
    ∀ (ids : List String) (s : List String), s.Nodup → (firstSeenFold s ids).Nodup := by
  intro ids
  induction ids with
  | nil => intro s hs; simpa [firstSeenFold] using hs
  | cons x rest ih =>
    intro s hs
    rw [firstSeenFold_cons]
    by_cases hx : x ∈ s
    · exact ih _ (by simpa [hx] using hs)
    · refine ih _ ?_
      rw [if_neg hx]
      simpa [List.nodup_append] using ⟨hs, hx⟩

theorem nodup_keys_rrfScores (k : ℚ) (rankedLists : List (List (String × ℚ))) :
    (PyDict.keys (rrfScores k rankedLists)).Nodup := by
  rw [keys_rrfScores]
  exact nodup_firstSeenFold _ [] List.nodup_nil

theorem pair_sublist_of_keys {α β : Type} [DecidableEq α] :
    ∀ {l : List (α × β)} {a b : α × β}, (PyDict.keys l).Nodup →
      a ∈ l → b ∈ l → [a.1, b.1].Sublist (PyDict.keys l) → [a, b].Sublist l := by
  intro l
  induction l with
  | nil => intro a b _ ha; cases ha
  | cons p rest ih =>
    intro a b hnd ha hb hk
    simp only [PyDict.keys, List.map_cons, List.nodup_cons] at hnd hk
    have hnd' : (PyDict.keys rest).Nodup := hnd.2
    rcases List.sublist_cons_iff.mp hk with htail | ⟨r, hr, hrs⟩
    · -- the pair of keys lives entirely in the tail
      have hamem : a.1 ∈ List.map Prod.fst rest := htail.subset (by simp)
      have hbmem : b.1 ∈ List.map Prod.fst rest := htail.subset (by simp)
      have ha' : a ∈ rest := by
        rcases List.mem_cons.mp ha with rfl | h
        · exact absurd hamem hnd.1
        · exact h
      have hb' : b ∈ rest := by
        rcases List.mem_cons.mp hb with rfl | h
        · exact absurd hbmem hnd.1
        · exact h
      exact (ih hnd' ha' hb' htail).cons p
    · -- a sits at the head, b in the tail
      injection hr with hfst hr2
      subst hr2
      have hbmem : b.1 ∈ List.map Prod.fst rest := List.singleton_sublist.mp hrs
      have hb' : b ∈ rest := by
        rcases List.mem_cons.mp hb with rfl | h
        · exact absurd hbmem hnd.1
        · exact h
      have ha' : a = p := by
        rcases List.mem_cons.mp ha with rfl | h
        · rfl
        · exact absurd (hfst ▸ List.mem_map_of_mem Prod.fst h) hnd.1
      subst ha'
      exact (List.singleton_sublist.mpr hb').cons₂ a

theorem processList_eq_of_map_fst (k : ℚ) :
    ∀ (l1 l2 : List (String × ℚ)) (d : List (String × ℚ)) (r : Nat),
      l1.map Prod.fst = l2.map Prod.fst → processList k d r l1 = processList k d r l2 := by
  intro l1
  induction l1 with
  | nil =>
    intro l2 d r h
    cases l2 with
    | nil => rfl
    | cons q rest2 => simp at h
  | cons p rest ih =>
    intro l2 d r h
    cases l2 with
    | nil => simp at h
    | cons q rest2 =>
      obtain ⟨x, s⟩ := p
      obtain ⟨y, t⟩ := q
      simp only [List.map_cons, List.cons.injEq] at h
      rw [processList, processList, h.1]
      exact ih rest2 _ _ h.2

theorem rrfScores_eq_of_map_fst (k : ℚ) (ls1 ls2 : List (List (String × ℚ)))
    (h : ls1.map (List.map Prod.fst) = ls2.map (List.map Prod.fst)) :
    rrfScores k ls1 = rrfScores k ls2 := by
  have main : ∀ (a : List (List (String × ℚ))) (b : List (List (String × ℚ)))
      (d : List (String × ℚ)),
      a.map (List.map Prod.fst) = b.map (List.map Prod.fst) →
      a.foldl (fun d l => processList k d 1 l) d = b.foldl (fun d l => processList k d 1 l) d := by
    intro a
    induction a with
    | nil =>
      intro b d hb
      cases b with
      | nil => rfl
      | cons q rest2 => simp at hb
    | cons l rest ih =>
      intro b d hb
      cases b with
      | nil => simp at hb
      | cons l2 rest2 =>
        simp only [List.map_cons, List.cons.injEq] at hb
        simp only [List.foldl_cons]
        rw [processList_eq_of_map_fst k l l2 d 1 hb.1]
        exact ih rest2 _ hb.2
  exact main ls1 ls2 [] h

/-- **C2**: `RRFService.reciprocal_rank_fusion` is insensitive to the score
components of its input tuples: two inputs carrying the same productIDs in
the same per-list rank order — with arbitrary, possibly different, attached
scores — fuse to literally the same output (ids and fused scores alike),
because only ranks enter the `1/(k + rank)` contributions. -/
theorem rrf_fuse_score_insensitive (ls1 ls2 : List (List (String × ℚ))) (k : ℚ)
    (h : ls1.map (List.map Prod.fst) = ls2.map (List.map Prod.fst)) :
    reciprocalRankFusion ls1 k = reciprocalRankFusion ls2 k := by
  by_cases h1 : ls1 = []
  · subst h1
    have h2 : ls2 = [] := by
      cases ls2 with
      | nil => rfl
      | cons q rest => simp at h
    subst h2
    rfl
  · have h2 : ls2 ≠ [] := by
      intro hc
      subst hc
      simp at h
      exact h1 h
    rw [reciprocalRankFusion, reciprocalRankFusion, if_neg h1, if_neg h2,
      rrfScores_eq_of_map_fst k ls1 ls2 h]

/-- Witness for C2 at a concrete input: the same rank orders with different
score values fuse identically. -/
theorem rrf_fuse_score_insensitive_witness :
    ([[("a", (5 : ℚ)), ("b", 2)], [("b", 9)]].map (List.map Prod.fst)
        = [[("a", (1 : ℚ)), ("b", 100)], [("b", 0)]].map (List.map Prod.fst)) ∧
    reciprocalRankFusion [[("a", 5), ("b", 2)], [("b", 9)]] 60
      = reciprocalRankFusion [[("a", 1), ("b", 100)], [("b", 0)]] 60 :=
  ⟨by rfl, rrf_fuse_score_insensitive _ _ 60 (by rfl)⟩

/-- **C1**: `RRFService.reciprocal_rank_fusion` assigns each occurrence the
contribution `1/(k + rank)` with rank starting at 1 inside its list, sums
contributions of the same productID over all lists, and returns the pairs
sorted by summed score descending, ties broken by first-seen input-list
order; and on `[["a","b","c"], ["c","a","d"]]` with `k = 60` it ranks
`"a"` first and `"c"` second. -/
theorem rrf_fusion_spec :
    (∀ (rankedLists : List (List (String × ℚ))) (k : ℚ), 0 < k →
      (∀ p ∈ reciprocalRankFusion rankedLists k, p.2 = totalScore rankedLists k p.1) ∧
      ((reciprocalRankFusion rankedLists k).map Prod.fst).Perm (firstSeenIds rankedLists) ∧
      List.Sorted byScoreDesc (reciprocalRankFusion rankedLists k) ∧
      (∀ a b, a ∈ reciprocalRankFusion rankedLists k →
        b ∈ reciprocalRankFusion rankedLists k → a.2 = b.2 →
        [a.1, b.1].Sublist (firstSeenIds rankedLists) →
        [a, b].Sublist (reciprocalRankFusion rankedLists k))) ∧
    (reciprocalRankFusion [[("a", 1), ("b", 1), ("c", 1)], [("c", 1), ("a", 1), ("d", 1)]]
        60).map Prod.fst = ["a", "c", "b", "d"] := by
  constructor
  · intro ls k _
    by_cases hnil : ls = []
    · subst hnil
      refine ⟨by simp [reciprocalRankFusion], ?_, by simp [reciprocalRankFusion], ?_⟩
      · simp [reciprocalRankFusion, firstSeenIds, firstSeenFold]
      · intro a b ha
        simp [reciprocalRankFusion] at ha
    · have hout : reciprocalRankFusion ls k
          = List.insertionSort byScoreDesc (rrfScores k ls) := by
        rw [reciprocalRankFusion, if_neg hnil]
      refine ⟨?_, ?_, ?_, ?_⟩
      · intro p hp
        rw [hout] at hp
        have hp' : p ∈ rrfScores k ls := (List.mem_insertionSort byScoreDesc).mp hp
        have := get?_eq_of_mem_of_nodup (nodup_keys_rrfScores k ls) hp'
        have hv : getVal (rrfScores k ls) p.1 = p.2 := by simp [getVal, this]
        rw [← hv, getVal_rrfScores]
      · rw [hout, ← keys_rrfScores k ls]
        exact (List.perm_insertionSort byScoreDesc (rrfScores k ls)).map Prod.fst
      · rw [hout]
        exact List.sorted_insertionSort byScoreDesc (rrfScores k ls)
      · intro a b ha hb heq hsub
        rw [hout] at ha hb ⊢
        have ha' : a ∈ rrfScores k ls := (List.mem_insertionSort byScoreDesc).mp ha
        have hb' : b ∈ rrfScores k ls := (List.mem_insertionSort byScoreDesc).mp hb
        rw [← keys_rrfScores k ls] at hsub
        have hpair := pair_sublist_of_keys (nodup_keys_rrfScores k ls) ha' hb' hsub
        exact List.pair_sublist_insertionSort (le_of_eq heq.symm) hpair
  · norm_num [reciprocalRankFusion, rrfScores, processList, addScore,
      PyDict.get?, PyDict.insert, List.insertionSort, List.orderedInsert, byScoreDesc,
      List.cons_ne_nil]

/-- Witness for C1 at `k = 60` on the two-list example. -/
theorem rrf_fusion_spec_witness :
    (0 : ℚ) < 60 ∧
    List.Sorted byScoreDesc
      (reciprocalRankFusion [[("a", 1), ("b", 1), ("c", 1)], [("c", 1), ("a", 1), ("d", 1)]]
        60) :=
  ⟨by norm_num, (rrf_fusion_spec.1 _ 60 (by norm_num)).2.2.1⟩

end RRF

/-! ## Weighted score combination
(`SearchService.combine_scores` / `SearchService._normalize_scores`,
`src/core/services/search_service.py`) -/

namespace PyDict

theorem mem_foldl_insert {α β γ : Type} [DecidableEq α] (key : γ → α) (val : γ → β) :
    ∀ (l : List γ) (d : List (α × β)) (p : α × β),
      p ∈ l.foldl (fun d q => insert d (key q) (val q)) d →
      p ∈ d ∨ ∃ q ∈ l, p.1 = key q ∧ p.2 = val q := by
  intro l
  induction l with
  | nil => intro d p hp; exact Or.inl hp
  | cons q rest ih =>
    intro d p hp
    rcases ih (insert d (key q) (val q)) p hp with h | ⟨q', hq', h1, h2⟩
    · rcases mem_of_mem_insert h with h' | h'
      · exact Or.inl h'
      · exact Or.inr ⟨q, List.mem_cons_self _ _, by simp [h'], by simp [h']⟩
    · exact Or.inr ⟨q', List.mem_cons_of_mem _ hq', h1, h2⟩

end PyDict

namespace Scoring

/-- Python `min(scores)` for the non-empty lists `_normalize_scores` sees. -/
def listMin : List ℚ → ℚ
  | [] => 0
  | x :: xs => xs.foldl min x

/-- Python `max(scores)` for the non-empty lists `_normalize_scores` sees. -/
def listMax : List ℚ → ℚ
  | [] => 0
  | x :: xs => xs.foldl max x

/-- `SearchService._normalize_scores(results)`: empty input gives the empty
dict; all-equal scores map every id to `1.0`; otherwise min-max scaling
`(score - min) / (max - min)` per id. -/
def normalizeScores (results : List (String × ℚ)) : List (String × ℚ) :=
  match results with
  | [] => []
  | _ :: _ =>
    let scores := results.map Prod.snd
    let minScore := listMin scores
    let maxScore := listMax scores
    if maxScore = minScore then
      results.foldl (fun d p => PyDict.insert d p.1 1) []
    else
      results.foldl
        (fun d p => PyDict.insert d p.1 ((p.2 - minScore) / (maxScore - minScore))) []

/-- `SearchService.combine_scores(bm25_results, vector_results, weights)`:
normalize each list, add `normalized * weight` into a combined dict
(`combined_scores.get(product_id, 0) + score * weight`), sort descending. -/
def combineScores (bm25Results vectorResults : List (String × ℚ))
    (bm25Weight vectorWeight : ℚ) : List (String × ℚ) :=
  let bm25Scores := normalizeScores bm25Results
  let vectorScores := normalizeScores vectorResults
  let afterBm25 := bm25Scores.foldl
    (fun d p => PyDict.insert d p.1 ((PyDict.get? d p.1).getD 0 + p.2 * bm25Weight)) []
  let combined := vectorScores.foldl
    (fun d p => PyDict.insert d p.1 ((PyDict.get? d p.1).getD 0 + p.2 * vectorWeight))
    afterBm25
  List.insertionSort RRF.byScoreDesc combined

theorem foldl_min_le_self : ∀ (xs : List ℚ) (x : ℚ), xs.foldl min x ≤ x := by
  intro xs
  induction xs with
  | nil => intro x; exact le_refl x
  | cons y ys ih => intro x; exact le_trans (ih (min x y)) (min_le_left x y)

theorem foldl_min_le_mem : ∀ (xs : List ℚ) (x y : ℚ), y ∈ xs → xs.foldl min x ≤ y := by
  intro xs
  induction xs with
  | nil => intro x y hy; cases hy
  | cons z zs ih =>
    intro x y hy
    rcases List.mem_cons.mp hy with rfl | hy'
    · exact le_trans (foldl_min_le_self zs (min x y)) (min_le_right x y)
    · exact ih (min x z) y hy'

theorem self_le_foldl_max : ∀ (xs : List ℚ) (x : ℚ), x ≤ xs.foldl max x := by
  intro xs
  induction xs with
  | nil => intro x; exact le_refl x
  | cons y ys ih => intro x; exact le_trans (le_max_left x y) (ih (max x y))

theorem mem_le_foldl_max : ∀ (xs : List ℚ) (x y : ℚ), y ∈ xs → y ≤ xs.foldl max x := by
  intro xs
  induction xs with
  | nil => intro x y hy; cases hy
  | cons z zs ih =>
    intro x y hy
    rcases List.mem_cons.mp hy with rfl | hy'
    · exact le_trans (le_max_right x y) (self_le_foldl_max zs (max x y))
    · exact ih (max x z) y hy'

theorem listMin_le_listMax {l : List ℚ} (h : l ≠ []) : listMin l ≤ listMax l := by
  cases l with
  | nil => exact absurd rfl h
  | cons x xs =>
    exact le_trans (foldl_min_le_self xs x) (self_le_foldl_max xs x)

theorem listMin_le_of_mem {l : List ℚ} {y : ℚ} (hy : y ∈ l) : listMin l ≤ y := by
  cases l with
  | nil => cases hy
  | cons x xs =>
    rcases List.mem_cons.mp hy with rfl | hy'
    · exact foldl_min_le_self xs y
    · exact foldl_min_le_mem xs x y hy'

theorem le_listMax_of_mem {l : List ℚ} {y : ℚ} (hy : y ∈ l) : y ≤ listMax l := by
  cases l with
  | nil => cases hy
  | cons x xs =>
    rcases List.mem_cons.mp hy with rfl | hy'
    · exact self_le_foldl_max xs y
    · exact mem_le_foldl_max xs x y hy'

theorem foldl_min_const : ∀ (xs : List ℚ) (x : ℚ), (∀ y ∈ xs, y = x) → xs.foldl min x = x := by
  intro xs
  induction xs with
  | nil => intro x _; rfl
  | cons z zs ih =>
    intro x h
    have hz : z = x := h z (List.mem_cons_self _ _)
    subst hz
    rw [List.foldl_cons, min_self]
    exact ih z fun y hy => h y (List.mem_cons_of_mem _ hy)

theorem foldl_max_const : ∀ (xs : List ℚ) (x : ℚ), (∀ y ∈ xs, y = x) → xs.foldl max x = x := by
  intro xs
  induction xs with
  | nil => intro x _; rfl
  | cons z zs ih =>
    intro x h
    have hz : z = x := h z (List.mem_cons_self _ _)
    subst hz
    rw [List.foldl_cons, max_self]
    exact ih z fun y hy => h y (List.mem_cons_of_mem _ hy)

/-- **C5**: `_normalize_scores` min-max scales every non-empty list into
`[0,1]` and maps every item to exactly `1.0` when all scores are equal;
combining the single list `[(x,10),(y,5)]` with weight `1.0` (and an empty
second list with weight `0`) yields `x = 1.0`, `y = 0.0`. -/
theorem normalize_combine_spec :
    (∀ results : List (String × ℚ), results ≠ [] →
      (∀ p ∈ normalizeScores results, 0 ≤ p.2 ∧ p.2 ≤ 1) ∧
      ((∀ q ∈ results, ∀ q' ∈ results, q.2 = q'.2) →
        ∀ p ∈ normalizeScores results, p.2 = 1)) ∧
    combineScores [("x", 10), ("y", 5)] [] 1 0 = [("x", 1), ("y", 0)] := by
  constructor
  · intro results hne
    cases results with
    | nil => exact absurd rfl hne
    | cons r rs =>
      constructor
      · intro p hp
        simp only [normalizeScores] at hp
        by_cases heq : listMax ((r :: rs).map Prod.snd) = listMin ((r :: rs).map Prod.snd)
        · rw [if_pos heq] at hp
          rcases PyDict.mem_foldl_insert Prod.fst (fun _ => 1) _ _ _ hp with h | ⟨q, _, _, h2⟩
          · cases h
          · rw [h2]; norm_num
        · rw [if_neg heq] at hp
          rcases PyDict.mem_foldl_insert Prod.fst
            (fun q => (q.2 - listMin ((r :: rs).map Prod.snd)) /
              (listMax ((r :: rs).map Prod.snd) - listMin ((r :: rs).map Prod.snd))) _ _ _ hp
            with h | ⟨q, hq, _, h2⟩
          · cases h
          · have hmem : q.2 ∈ (r :: rs).map Prod.snd := List.mem_map_of_mem Prod.snd hq
            have hmin : listMin ((r :: rs).map Prod.snd) ≤ q.2 := listMin_le_of_mem hmem
            have hmax : q.2 ≤ listMax ((r :: rs).map Prod.snd) := le_listMax_of_mem hmem
            have hlt : listMin ((r :: rs).map Prod.snd) < listMax ((r :: rs).map Prod.snd) :=
              lt_of_le_of_ne (listMin_le_listMax (by simp)) (fun h => heq h.symm)
            have hpos :
                0 < listMax ((r :: rs).map Prod.snd) - listMin ((r :: rs).map Prod.snd) :=
              sub_pos.mpr hlt
            rw [h2]
            refine ⟨div_nonneg (sub_nonneg.mpr hmin) (le_of_lt hpos), ?_⟩
            rw [div_le_one hpos]
            exact sub_le_sub_right hmax _
      · intro hall p hp
        have hconst : ∀ y ∈ rs.map Prod.snd, y = r.2 := by
          intro y hy
          rcases List.mem_map.mp hy with ⟨q, hq, rfl⟩
          exact hall q (List.mem_cons_of_mem _ hq) r (List.mem_cons_self _ _)
        have hminc : listMin ((r :: rs).map Prod.snd) = r.2 := by
          simp only [List.map_cons, listMin]
          exact foldl_min_const _ _ hconst
        have hmaxc : listMax ((r :: rs).map Prod.snd) = r.2 := by
          simp only [List.map_cons, listMax]
          exact foldl_max_const _ _ hconst
        have heq : listMax ((r :: rs).map Prod.snd) = listMin ((r :: rs).map Prod.snd) := by
          rw [hminc, hmaxc]
        simp only [normalizeScores] at hp
        rw [if_pos heq] at hp
        rcases PyDict.mem_foldl_insert Prod.fst (fun _ => 1) _ _ _ hp with h | ⟨q, _, _, h2⟩
        · cases h
        · exact h2
  · norm_num [combineScores, normalizeScores, listMin, listMax,
      PyDict.insert, PyDict.get?, List.insertionSort, List.orderedInsert, RRF.byScoreDesc]
    simp

/-- Witness for C5: an all-equal two-element list stays inside `[0,1]`. -/
theorem normalize_combine_spec_witness :
    ([("x", (3 : ℚ)), ("y", 3)] ≠ []) ∧
    (∀ p ∈ normalizeScores [("x", (3 : ℚ)), ("y", 3)], 0 ≤ p.2 ∧ p.2 ≤ 1) :=
  ⟨by simp, (normalize_combine_spec.1 _ (by simp)).1⟩

end Scoring

/-! ## FAISS vector repository (`src/core/repositories/vector_repository.py`) -/

/-- An embedding vector (Python `List[float]`). -/
abbrev Vec := List ℚ

namespace VectorRepo

/-- The mutable state of a `VectorRepository`: `self.index` (`None` or the
flat FAISS index as its list of vectors in slot order), `self.product_id_map`,
`self.id_to_index_map`, `self.products` (insertion-ordered dicts) and
`self._next_index`. -/
structure RepoState where
  index : Option (List Vec)
  productIdMap : List (Nat × String)
  idToIndexMap : List (String × Nat)
  products : List (String × Product)
  nextIndex : Nat
deriving Repr, DecidableEq

/-- The state built by `__init__`. -/
def emptyState : RepoState := ⟨none, [], [], [], 0⟩

/-- `self.index.ntotal`, guarded by `self.index is None`. -/
def indexCount (s : RepoState) : Nat :=
  match s.index with
  | none => 0
  | some vecs => vecs.length

/-- `_initialize_index`: only creates a fresh empty index when `self.index is None`. -/
def initializeIndex (s : RepoState) : RepoState :=
  match s.index with
  | none => { s with index := some [] }
  | some _ => s

/-- The `for i, product in enumerate(products)` mapping loop of `create_index`;
`self._next_index` is only bumped after the loop, so every slot is
`s.nextIndex + i`. -/
def addMappings (s : RepoState) : Nat → List Product → RepoState
  | _, [] => s
  | i, p :: rest =>
      addMappings
        { s with
          productIdMap := PyDict.insert s.productIdMap (s.nextIndex + i) p.id
          idToIndexMap := PyDict.insert s.idToIndexMap p.id (s.nextIndex + i)
          products := PyDict.insert s.products p.id p }
        (i + 1) rest

/-- `create_index(products)` with the embedding gateway `embed` standing for
`generate_embeddings_batch` over `get_combined_text`. Note that
`_initialize_index` keeps any existing index and `self.index.add` appends,
so an earlier non-empty index is extended, not replaced. -/
def createIndex (embed : String → Vec) (s : RepoState) (products : List Product) :
    Except PyErr RepoState :=
  if products = [] then .error (.valueError "Products list cannot be empty")
  else
    let embeddings := products.map (fun p => embed p.getCombinedText)
    let s1 := initializeIndex s
    let s2 := { s1 with index := some (s1.index.getD [] ++ embeddings) }
    let s3 := addMappings s2 0 products
    .ok { s3 with nextIndex := s3.nextIndex + products.length }

/-- `add_product(product)`. -/
def addProduct (embed : String → Vec) (s : RepoState) (p : Product) :
    Except PyErr RepoState :=
  if PyDict.contains s.products p.id then
    .error (.valueError "Product already exists")
  else
    let s1 := initializeIndex s
    let embedding := embed p.getCombinedText
    let s2 := { s1 with index := some (s1.index.getD [] ++ [embedding]) }
    .ok { s2 with
      productIdMap := PyDict.insert s2.productIdMap s2.nextIndex p.id
      idToIndexMap := PyDict.insert s2.idToIndexMap p.id s2.nextIndex
      products := PyDict.insert s2.products p.id p
      nextIndex := s2.nextIndex + 1 }

/-- `_rebuild_index()`: clears the id maps and `_next_index` and calls
`create_index` over `list(self.products.values())`, but never resets
`self.index`, so `create_index` appends to the surviving old vectors. -/
def rebuildIndex (embed : String → Vec) (s : RepoState) : Except PyErr RepoState :=
  if s.products = [] then
    .ok { s with index := none, productIdMap := [], idToIndexMap := [], nextIndex := 0 }
  else
    let s1 := { s with productIdMap := [], idToIndexMap := [], nextIndex := 0 }
    createIndex embed s1 (PyDict.values s1.products)

/-- `update_product(product)`: store the new product and rebuild. -/
def updateProduct (embed : String → Vec) (s : RepoState) (p : Product) :
    Except PyErr RepoState :=
  if PyDict.contains s.products p.id then
    rebuildIndex embed { s with products := PyDict.insert s.products p.id p }
  else
    .error (.valueError "Product does not exist")

/-- `delete_product(product_id)`: drop the three map entries and rebuild. -/
def deleteProduct (embed : String → Vec) (s : RepoState) (productId : String) :
    Except PyErr RepoState :=
  if PyDict.contains s.products productId then
    match PyDict.get? s.idToIndexMap productId with
    | none => .error .keyError
    | some faissIndex =>
        rebuildIndex embed
          { s with
            productIdMap := PyDict.erase s.productIdMap faissIndex
            idToIndexMap := PyDict.erase s.idToIndexMap productId
            products := PyDict.erase s.products productId }
  else
    .error (.valueError "Product does not exist")

/-- Squared L2 distance — what `faiss.IndexFlatL2.search` reports for
same-dimension vectors. -/
def l2sq (a b : Vec) : ℚ :=
  (List.zipWith (fun x y => (x - y) * (x - y)) a b).sum

/-- Ascending distance order; ties keep the lower slot first (stability). -/
def byDistAsc (a b : Nat × ℚ) : Prop := a.2 ≤ b.2

instance : DecidableRel byDistAsc := fun a b => inferInstanceAs (Decidable (a.2 ≤ b.2))

instance : IsTotal (Nat × ℚ) byDistAsc := ⟨fun a b => le_total a.2 b.2⟩

instance : IsTrans (Nat × ℚ) byDistAsc := ⟨fun _ _ _ h h' => le_trans h h'⟩

/-- Model of `faiss.IndexFlatL2.search`: the `k` slots with smallest squared
L2 distance to the query, distances ascending. -/
def faissSearch (vecs : List Vec) (q : Vec) (k : Nat) : List (Nat × ℚ) :=
  (List.insertionSort byDistAsc ((vecs.map (l2sq q)).enum)).take k

/-- The shared search body of `CaptionRepository.search_by_embedding`
(lines 142-161 of `caption_repository.py`): empty or missing index gives
`[]`; `k` is clamped with `min(k, ntotal)`; every hit whose slot is in
`product_id_map` becomes `(product_id, 1/(1 + distance))`. -/
def searchByEmbedding (s : RepoState) (embedding : Vec) (k : Nat) : List (String × ℚ) :=
  match s.index with
  | none => []
  | some vecs =>
    if vecs.length = 0 then []
    else
      let hits := faissSearch vecs embedding (min k vecs.length)
      hits.filterMap fun hit =>
        (PyDict.get? s.productIdMap hit.1).map fun pid => (pid, 1 / (1 + hit.2))

/-- `VectorRepository.search_similar(query, k)`: after the blank-query guard
its body (lines 178-202) is exactly the caption repository search applied to
the embedding of the stripped query. -/
def searchSimilar (embed : String → Vec) (s : RepoState) (query : String) (k : Nat) :
    Except PyErr (List (String × ℚ)) :=
  if pyStrip query = "" then .error (.valueError "Query cannot be empty")
  else .ok (searchByEmbedding s (embed (pyStrip query)) k)

end VectorRepo

deriving instance DecidableEq for Except

namespace VectorRepo

/-- A constant embedding gateway used for the concrete repository runs. -/
def embedConst : String → Vec := fun _ => []

/-- A concrete valid product. -/
def demoProduct : Product := ⟨"p1", "Shirt", "Red shirt", none⟩

/-- `add_product(p1)` on a fresh repository. -/
def demoAdded : Except PyErr RepoState := addProduct embedConst emptyState demoProduct

/-- ... then `update_product(p1)` once. -/
def demoOnce : Except PyErr RepoState :=
  demoAdded.bind fun s => updateProduct embedConst s demoProduct

/-- ... then the identical `update_product(p1)` a second time. -/
def demoTwice : Except PyErr RepoState :=
  demoOnce.bind fun s => updateProduct embedConst s demoProduct

/-- **C6** (code bug): `update_product` is not idempotent on the full
repository state. `_rebuild_index` clears the id maps but never resets
`self.index`, and `create_index` appends to a surviving index, so each
update grows the backing index: after one update the index holds 2 vectors,
after the identical second update 3, hence the two states differ. -/
theorem update_twice_not_idempotent :
    demoOnce.map indexCount = .ok 2 ∧
    demoTwice.map indexCount = .ok 3 ∧
    demoTwice ≠ demoOnce := by
  refine ⟨by decide, by decide, by decide⟩

/-- **C7** (code bug): the invariant `|slots| == |productIDs| ==
backing-index.count` is broken by a successful `add_product` followed by a
successful `update_product` on a fresh repository: both id maps then hold
one entry while the backing index holds two vectors (the rebuild appended
instead of replacing). -/
theorem add_update_invariant_violation :
    demoOnce.map
        (fun s => (PyDict.size s.productIdMap, PyDict.size s.idToIndexMap, indexCount s))
      = .ok (1, 1, 2) := by
  decide

end VectorRepo

namespace VectorRepo

theorem l2sq_nonneg : ∀ (a b : Vec), 0 ≤ l2sq a b := by
  intro a
  induction a with
  | nil => intro b; simp [l2sq]
  | cons x xs ih =>
    intro b
    cases b with
    | nil => simp [l2sq]
    | cons y ys =>
      have h1 : 0 ≤ (x - y) * (x - y) := mul_self_nonneg _
      have h2 : 0 ≤ l2sq xs ys := ih ys
      simp only [l2sq, List.zipWith_cons_cons, List.sum_cons] at h2 ⊢
      exact add_nonneg h1 h2

theorem filterMap_map_eq_map_of_isSome {γ δ ε : Type} (m : γ → Option δ) (n : γ → δ → ε)
    (d : δ) :
    ∀ l : List γ, (∀ x ∈ l, (m x).isSome) →
      (l.filterMap fun x => (m x).map (n x)) = l.map fun x => n x ((m x).getD d) := by
  intro l
  induction l with
  | nil => intro _; rfl
  | cons x xs ih =>
    intro h
    have hx : (m x).isSome := h x (List.mem_cons_self _ _)
    cases hmx : m x with
    | none => rw [hmx] at hx; cases hx
    | some y =>
      simp only [List.filterMap_cons, hmx, Option.map_some', List.map_cons, Option.getD_some]
      rw [ih fun z hz => h z (List.mem_cons_of_mem _ hz)]

theorem pairwise_and_of_forall {γ : Type} {R : γ → γ → Prop} {P : γ → Prop} :
    ∀ (l : List γ), l.Pairwise R → (∀ x ∈ l, P x) →
      l.Pairwise fun a b => R a b ∧ P a
  | [], _, _ => List.Pairwise.nil
  | a :: rest, h, hp => by
    rcases List.pairwise_cons.mp h with ⟨hr, ht⟩
    refine List.Pairwise.cons ?_
      (pairwise_and_of_forall rest ht fun x hx => hp x (List.mem_cons_of_mem _ hx))
    intro b hb
    exact ⟨hr b hb, hp a (List.mem_cons_self _ _)⟩

theorem mem_faissSearch {vecs : List Vec} {q : Vec} {k : Nat} {h : Nat × ℚ}
    (hm : h ∈ faissSearch vecs q k) : ∃ v, vecs[h.1]? = some v ∧ h.2 = l2sq q v := by
  unfold faissSearch at hm
  have hm' : h ∈ List.insertionSort byDistAsc ((vecs.map (l2sq q)).enum) :=
    (List.take_sublist _ _).subset hm
  have hm2 : h ∈ (vecs.map (l2sq q)).enum := (List.mem_insertionSort byDistAsc).mp hm'
  have hget : (vecs.map (l2sq q))[h.1]? = some h.2 := List.mem_enum_iff_getElem?.mp hm2
  rw [List.getElem?_map] at hget
  cases hv : vecs[h.1]? with
  | none => rw [hv] at hget; cases hget
  | some v =>
    rw [hv] at hget
    simp only [Option.map_some', Option.some.injEq] at hget
    exact ⟨v, rfl, hget.symm⟩

theorem length_faissSearch (vecs : List Vec) (q : Vec) (k : Nat) :
    (faissSearch vecs q k).length = min k vecs.length := by
  unfold faissSearch
  rw [List.length_take, List.length_insertionSort, List.enum_length, List.length_map]

theorem pairwise_faissSearch (vecs : List Vec) (q : Vec) (k : Nat) :
    (faissSearch vecs q k).Pairwise byDistAsc := by
  unfold faissSearch
  exact List.Pairwise.sublist (List.take_sublist _ _)
    (List.sorted_insertionSort byDistAsc ((vecs.map (l2sq q)).enum))

/-- The behavior of the shared nearest-neighbor search body, for states whose
slots are all mapped (`product_id_map` covers every index position). -/
theorem searchByEmbedding_spec (s : RepoState) (emb : Vec) (k : Nat)
    (hwf : ∀ i : Nat, i < indexCount s → PyDict.contains s.productIdMap i = true) :
    (searchByEmbedding s emb k).length = min k (indexCount s) ∧
    List.Sorted RRF.byScoreDesc (searchByEmbedding s emb k) ∧
    (∀ p ∈ searchByEmbedding s emb k, ∃ i v,
      (s.index.getD [])[i]? = some v ∧ PyDict.get? s.productIdMap i = some p.1 ∧
      p.2 = 1 / (1 + l2sq emb v)) ∧
    (indexCount s = 0 → searchByEmbedding s emb k = []) := by
  cases hidx : s.index with
  | none =>
    have hc : indexCount s = 0 := by simp [indexCount, hidx]
    refine ⟨?_, ?_, ?_, ?_⟩ <;> simp [searchByEmbedding, hidx, hc]
  | some vecs =>
    have hc : indexCount s = vecs.length := by simp [indexCount, hidx]
    by_cases hzero : vecs.length = 0
    · refine ⟨?_, ?_, ?_, ?_⟩ <;> simp [searchByEmbedding, hidx, hzero, hc]
    · have hout : searchByEmbedding s emb k
          = (faissSearch vecs emb (min k vecs.length)).filterMap fun hit =>
              (PyDict.get? s.productIdMap hit.1).map fun pid => (pid, 1 / (1 + hit.2)) := by
        simp [searchByEmbedding, hidx, hzero]
      have hsome : ∀ h ∈ faissSearch vecs emb (min k vecs.length),
          (PyDict.get? s.productIdMap h.1).isSome := by
        intro h hm
        rcases mem_faissSearch hm with ⟨v, hv, _⟩
        have hlt : h.1 < vecs.length := (List.getElem?_eq_some.mp hv).1
        have := hwf h.1 (hc ▸ hlt)
        simpa [PyDict.contains] using this
      have hmap : searchByEmbedding s emb k
          = (faissSearch vecs emb (min k vecs.length)).map fun (h : Nat × ℚ) =>
              ((PyDict.get? s.productIdMap h.1).getD "", 1 / (1 + h.2)) := by
        rw [hout]
        exact filterMap_map_eq_map_of_isSome
          (fun hit : Nat × ℚ => PyDict.get? s.productIdMap hit.1)
          (fun hit pid => (pid, 1 / (1 + hit.2))) "" _ hsome
      refine ⟨?_, ?_, ?_, ?_⟩
      · rw [hmap, List.length_map, length_faissSearch, hc]
        omega
      · rw [hmap]
        have hpw := pairwise_and_of_forall (P := fun h => 0 ≤ h.2) _
          (pairwise_faissSearch vecs emb (min k vecs.length))
          (by
            intro x hx
            rcases mem_faissSearch hx with ⟨v, _, hxv⟩
            rw [hxv]
            exact l2sq_nonneg emb v)
        refine List.Pairwise.map _ ?_ hpw
        intro a b hab
        have h1 : (0 : ℚ) < 1 + a.2 := by linarith [hab.2]
        have h2 : 1 + a.2 ≤ 1 + b.2 := by
          have := hab.1
          simp only [byDistAsc] at this
          linarith
        exact one_div_le_one_div_of_le h1 h2
      · intro p hp
        rw [hmap] at hp
        rcases List.mem_map.mp hp with ⟨h, hmem, rfl⟩
        rcases mem_faissSearch hmem with ⟨v, hv, hdist⟩
        have hsm := hsome h hmem
        cases hpid : PyDict.get? s.productIdMap h.1 with
        | none => rw [hpid] at hsm; cases hsm
        | some pid =>
          refine ⟨h.1, v, by simpa [hidx] using hv, by simp [hpid], by rw [hdist]⟩
      · intro habs
        rw [hc] at habs
        exact absurd habs hzero

/-- **C4**: for every repository state whose `product_id_map` covers all
index slots and every requested `k`, `search_similar` (and the identical
caption-repository `search_by_embedding` body) returns `min k ntotal`
pairs — so an empty index yields `[]` rather than an error and an oversized
`k` is clamped to the index size — ordered by descending similarity, where
each similarity is `1/(1 + L2distance)` of the matched stored vector. -/
theorem search_similar_spec (embed : String → Vec) (s : RepoState) (query : String)
    (k : Nat) (hq : pyStrip query ≠ "")
    (hwf : ∀ i : Nat, i < indexCount s → PyDict.contains s.productIdMap i = true) :
    searchSimilar embed s query k = .ok (searchByEmbedding s (embed (pyStrip query)) k) ∧
    (searchByEmbedding s (embed (pyStrip query)) k).length = min k (indexCount s) ∧
    List.Sorted RRF.byScoreDesc (searchByEmbedding s (embed (pyStrip query)) k) ∧
    (∀ p ∈ searchByEmbedding s (embed (pyStrip query)) k, ∃ i v,
      (s.index.getD [])[i]? = some v ∧ PyDict.get? s.productIdMap i = some p.1 ∧
      p.2 = 1 / (1 + l2sq (embed (pyStrip query)) v)) ∧
    (indexCount s = 0 → searchByEmbedding s (embed (pyStrip query)) k = []) := by
  refine ⟨?_, searchByEmbedding_spec s (embed (pyStrip query)) k hwf⟩
  rw [searchSimilar, if_neg hq]

end VectorRepo

namespace VectorRepo

/-- A concrete well-formed two-product repository state. -/
def demoSearchState : RepoState :=
  ⟨some [[1], [0]], [(0, "a"), (1, "b")], [("a", 0), ("b", 1)],
    [("a", ⟨"a", "t", "d", none⟩), ("b", ⟨"b", "t", "d", none⟩)], 2⟩

/-- Witness for C4: a two-vector repository, query `"q"`, `k = 5`. -/
theorem search_similar_spec_witness :
    (pyStrip "q" ≠ "") ∧
    (∀ i : Nat, i < indexCount demoSearchState →
      PyDict.contains demoSearchState.productIdMap i = true) ∧
    (searchByEmbedding demoSearchState (embedConst (pyStrip "q")) 5).length
      = min 5 (indexCount demoSearchState) :=
  ⟨by decide, by decide,
    (search_similar_spec embedConst demoSearchState "q" 5 (by decide) (by decide)).2.1⟩

end VectorRepo

/-! ## Image / hybrid-image search (`src/core/services/search_service.py`) -/

namespace SearchSvc

/-- `SearchService.search_by_description_A(image, k)` (lines 353-382):
after the emptiness guard and the `k` default, the body tests
`isinstance(query_image, Image.Image)` — but `query_image` is not a name in
scope (the parameter is `image` and no global of that name exists), so every
call raises `NameError` before reaching the vector search. -/
def searchByDescriptionA (image : String) (k? : Option Nat) :
    Except PyErr (List (String × ℚ)) :=
  if image = "" then .error (.valueError "Image cannot be empty")
  else
    let _k := k?.getD 10
    .error (.nameError "query_image")

/-- The best-similarity dictionaries and weighted combination shared verbatim
by the two hybrid image searches (lines 408-434 and 466-492): max similarity
per id per modality, `score = s_i*w_i + s_c*w_c + s_d*w_d`, filter
`score >= umbral`, stable sort by final score descending, truncate to `k`.
CPython enumerates `set(sim_img) | set(sim_cap) | set(sim_des)` in an
unspecified order; the model fixes the first-seen order, on which the
claims do not depend. -/
def hybridCombine (images captions descriptions : List (String × ℚ))
    (pesoImagen pesoCaption pesoDescription umbral : ℚ) (k : Nat) :
    List (String × ℚ × ℚ × ℚ × ℚ) :=
  let bestOf := fun (l : List (String × ℚ)) =>
    l.foldl (fun d (p : String × ℚ) =>
      PyDict.insert d p.1 (max ((PyDict.get? d p.1).getD 0) p.2)) []
  let simImg := bestOf images
  let simCap := bestOf captions
  let simDes := bestOf descriptions
  let allIds := RRF.firstSeenFold []
    (PyDict.keys simImg ++ PyDict.keys simCap ++ PyDict.keys simDes)
  let combined := allIds.filterMap fun pid =>
    let si := (PyDict.get? simImg pid).getD 0
    let sc := (PyDict.get? simCap pid).getD 0
    let sd := (PyDict.get? simDes pid).getD 0
    let score := si * pesoImagen + sc * pesoCaption + sd * pesoDescription
    if umbral ≤ score then some (pid, si, sc, sd, score) else none
  (List.insertionSort (fun a b => b.2.2.2.2 ≤ a.2.2.2.2) combined).take k

/-- `SearchService.hydrid_search_image_A` (lines 384-434). The caption
gateway and the image/caption sub-searches are external, so the generated
`caption` and their result lists are parameters (the sub-searches are
assumed to succeed); `search_by_description_A` is the modelled function
above. The weight-sum check is the exact `if not (total == 1)` — no
tolerance. -/
def hydridSearchImageA (queryImage caption : String)
    (images captions : List (String × ℚ)) (k? : Option Nat)
    (pesoImagen pesoCaption pesoDescription umbral : ℚ) :
    Except PyErr (List (String × ℚ × ℚ × ℚ × ℚ)) :=
  if queryImage = "" then .error (.valueError "Query cannot be empty")
  else
    let k := k?.getD 10
    if ¬ (0 ≤ pesoImagen ∧ 0 ≤ pesoCaption ∧ 0 ≤ pesoDescription) then
      .error (.valueError "Los pesos deben ser no negativos")
    else if ¬ (pesoImagen + pesoCaption + pesoDescription = 1) then
      .error (.valueError "Los pesos deben sumar 1")
    else
      match searchByDescriptionA caption (some (k * 2)) with
      | .error e => .error e
      | .ok descriptions =>
          .ok (hybridCombine images captions descriptions pesoImagen pesoCaption
            pesoDescription umbral k)

/-- `SearchService.hybrid_search_image_description_A` (lines 436-492): the
weight-sum check uses the `tol` tolerance (`abs(total - 1.0) > tol`); the
three retrievals (image search, caption search, and
`vector_repo.search_similar(query)` for the description leg) are external
and passed as result-list parameters. -/
def hybridSearchImageDescriptionA (queryImage : String)
    (images captions descriptions : List (String × ℚ)) (k? : Option Nat)
    (pesoImagen pesoCaption pesoDescription umbral tol : ℚ) :
    Except PyErr (List (String × ℚ × ℚ × ℚ × ℚ)) :=
  if queryImage = "" then .error (.valueError "Query cannot be empty")
  else
    let k := k?.getD 10
    if ¬ (0 ≤ pesoImagen ∧ 0 ≤ pesoCaption ∧ 0 ≤ pesoDescription) then
      .error (.valueError "Los pesos deben ser no negativos")
    else if tol < |pesoImagen + pesoCaption + pesoDescription - 1| then
      .error (.valueError "Los pesos deben sumar 1")
    else
      .ok (hybridCombine images captions descriptions pesoImagen pesoCaption
        pesoDescription umbral k)

end SearchSvc

namespace SearchSvc

/-- **C10** (code bug): `SearchService.search_by_description_A` never reaches
`vector_repo.search_similar`: its body reads the undefined name
`query_image` (the parameter is `image`), so every call on a non-empty
input raises `NameError` — here evaluated at a concrete caption. -/
theorem search_by_description_name_error :
    searchByDescriptionA "a red shirt" (some 10) = .error (.nameError "query_image") := by
  decide

/-- C3 counterexample: the non-negative triple `(2/5, 1/5, 2/5 + 1/2000000)`
sums to `1` within the claimed `1e-6` tolerance, yet `hydrid_search_image_A`
rejects it with the weights `ValueError`: its check is exact equality,
not a toleranced comparison. -/
theorem hydrid_tolerance_counterexample :
    (0 ≤ (2/5 : ℚ) ∧ 0 ≤ (1/5 : ℚ) ∧ 0 ≤ (2/5 + 1/2000000 : ℚ)) ∧
    |(2/5 : ℚ) + 1/5 + (2/5 + 1/2000000) - 1| ≤ 1/1000000 ∧
    hydridSearchImageA "img" "caption" [] [] (some 10)
        (2/5) (1/5) (2/5 + 1/2000000) 0
      = .error (.valueError "Los pesos deben sumar 1") := by
  refine ⟨by norm_num, by rw [abs_of_nonneg] <;> norm_num, ?_⟩
  norm_num [hydridSearchImageA]
  simp

/-- **C3** (amended): `hydrid_search_image_A` validates its weights with
exact equality — it raises the non-negativity `ValueError` exactly on a
negative weight, the sum `ValueError` exactly when the non-negative weights
do not sum to exactly `1`, and otherwise proceeds past validation only to
fail with the `NameError` of `search_by_description_A`; only
`hybrid_search_image_description_A` applies the `tol` (`1e-6` at the spec's
default) tolerance, succeeding exactly when the weights are non-negative
and `|sum - 1| ≤ tol`. In particular `0.4/0.2/0.4` passes both validations
(and the image+text variant succeeds outright), while `0.4/0.2/0.3` is
rejected by both with the weight-sum `ValueError`. -/
theorem hybrid_image_weight_validation :
    (∀ (queryImage caption : String) (images captions : List (String × ℚ))
        (k? : Option Nat) (wi wc wd umbral : ℚ), queryImage ≠ "" → caption ≠ "" →
      (hydridSearchImageA queryImage caption images captions k? wi wc wd umbral
          = .error (.valueError "Los pesos deben ser no negativos")
        ↔ ¬ (0 ≤ wi ∧ 0 ≤ wc ∧ 0 ≤ wd)) ∧
      (hydridSearchImageA queryImage caption images captions k? wi wc wd umbral
          = .error (.valueError "Los pesos deben sumar 1")
        ↔ (0 ≤ wi ∧ 0 ≤ wc ∧ 0 ≤ wd) ∧ wi + wc + wd ≠ 1) ∧
      ((0 ≤ wi ∧ 0 ≤ wc ∧ 0 ≤ wd) → wi + wc + wd = 1 →
        hydridSearchImageA queryImage caption images captions k? wi wc wd umbral
          = .error (.nameError "query_image"))) ∧
    (∀ (queryImage : String) (images captions descriptions : List (String × ℚ))
        (k? : Option Nat) (wi wc wd umbral tol : ℚ), queryImage ≠ "" →
      ((∃ res, hybridSearchImageDescriptionA queryImage images captions descriptions
          k? wi wc wd umbral tol = .ok res)
        ↔ (0 ≤ wi ∧ 0 ≤ wc ∧ 0 ≤ wd) ∧ |wi + wc + wd - 1| ≤ tol)) ∧
    hybridSearchImageDescriptionA "img" [] [] [] (some 5)
      (2/5) (1/5) (2/5) 0 (1/1000000) = .ok [] ∧
    hydridSearchImageA "img" "cap" [] [] (some 10) (2/5) (1/5) (2/5) 0
      = .error (.nameError "query_image") ∧
    hydridSearchImageA "img" "cap" [] [] (some 10) (2/5) (1/5) (3/10) 0
      = .error (.valueError "Los pesos deben sumar 1") ∧
    hybridSearchImageDescriptionA "img" [] [] [] (some 5)
      (2/5) (1/5) (3/10) 0 (1/1000000)
      = .error (.valueError "Los pesos deben sumar 1") := by
  refine ⟨?_, ?_, ?_, ?_, ?_, ?_⟩
  · intro queryImage caption images captions k? wi wc wd umbral hq hc
    have hdesc : searchByDescriptionA caption (some ((k?.getD 10) * 2))
        = .error (.nameError "query_image") := by
      rw [searchByDescriptionA, if_neg hc]
    refine ⟨?_, ?_, ?_⟩
    · by_cases h1 : (0 ≤ wi ∧ 0 ≤ wc ∧ 0 ≤ wd) <;>
        by_cases h2 : wi + wc + wd = 1 <;>
        simp [hydridSearchImageA, hq, h1, h2, hdesc]
    · by_cases h1 : (0 ≤ wi ∧ 0 ≤ wc ∧ 0 ≤ wd) <;>
        by_cases h2 : wi + wc + wd = 1 <;>
        simp [hydridSearchImageA, hq, h1, h2, hdesc]
    · intro h1 h2
      simp [hydridSearchImageA, hq, h1, h2, hdesc]
  · intro queryImage images captions descriptions k? wi wc wd umbral tol hq
    by_cases h1 : (0 ≤ wi ∧ 0 ≤ wc ∧ 0 ≤ wd)
    · by_cases h2 : tol < |wi + wc + wd - 1|
      · simp [hybridSearchImageDescriptionA, hq, h1, h2]
      · simp [hybridSearchImageDescriptionA, hq, h1, h2]
        exact not_lt.mp h2
    · simp [hybridSearchImageDescriptionA, hq, h1]
  · norm_num [hybridSearchImageDescriptionA, hybridCombine, RRF.firstSeenFold,
      PyDict.keys, List.insertionSort]
    simp
  · norm_num [hydridSearchImageA, searchByDescriptionA]
    simp
  · norm_num [hydridSearchImageA]
    simp
  · norm_num [hybridSearchImageDescriptionA]
    simp
    rw [abs_of_nonneg] <;> norm_num

/-- Witness for C3 at a concrete input: with positive weights that sum to
`1.05`, the image+text hybrid rejects (no `.ok` result). -/
theorem hybrid_image_weight_validation_witness :
    ("img" : String) ≠ "" ∧
    ¬ ((∃ res, hybridSearchImageDescriptionA "img" [] [] [] (some 5)
        (2/5) (1/5) (9/20) 0 (1/1000000) = .ok res)) :=
  ⟨by decide, by
    have h := (hybrid_image_weight_validation.2.1 "img" [] [] [] (some 5)
      (2/5) (1/5) (9/20) 0 (1/1000000) (by decide))
    intro hok
    have := h.mp hok
    have habs : |(2/5 : ℚ) + 1/5 + 9/20 - 1| ≤ 1/1000000 := this.2
    rw [abs_of_nonneg (by norm_num)] at habs
    norm_num at habs⟩

/-! ## BM25, image and caption repositories, and the catalog orchestrator
(`src/core/repositories/bm25_repository.py`,
`src/core/repositories/caption_repository.py`,
`src/core/services/product_service.py`) -/

namespace Bm25Repo

/-- `BM25Repository` state: the retriever (`None` or built from a snapshot
of the documents), `self.products` and `self.documents`
(`ProductDocument` = page content `get_combined_text` plus the product id). -/
structure Bm25State where
  retriever : Option (List (String × String))
  products : List (String × Product)
  documents : List (String × String)
deriving Repr, DecidableEq

/-- `BM25Repository.__init__`. -/
def emptyBm25 : Bm25State := ⟨none, [], []⟩

/-- `rebuild_index()`: retriever dropped when no documents, else rebuilt
from the current documents. -/
def rebuildBm25 (s : Bm25State) : Bm25State :=
  if s.documents = [] then { s with retriever := none }
  else { s with retriever := some s.documents }

/-- `BM25Repository.add_product`. -/
def addProductB (s : Bm25State) (p : Product) : Except PyErr Bm25State :=
  if PyDict.contains s.products p.id then
    .error (.valueError "Product already exists")
  else
    .ok (rebuildBm25
      { s with
        products := PyDict.insert s.products p.id p
        documents := s.documents ++ [(p.id, p.getCombinedText)] })

/-- The `for i, doc in enumerate(self.documents)` replacement loop of
`update_product` (first matching document only). -/
def replaceDoc (pid content : String) : List (String × String) → List (String × String)
  | [] => []
  | (i, c) :: rest =>
      if i = pid then (pid, content) :: rest else (i, c) :: replaceDoc pid content rest

/-- `BM25Repository.update_product`. -/
def updateProductB (s : Bm25State) (p : Product) : Except PyErr Bm25State :=
  if PyDict.contains s.products p.id then
    .ok (rebuildBm25
      { s with
        products := PyDict.insert s.products p.id p
        documents := replaceDoc p.id p.getCombinedText s.documents })
  else
    .error (.valueError "Product does not exist")

end Bm25Repo

namespace ImageRepo

/-- Modelled from the spec: the `ImageRepository` source file
(`core/repositories/image_repository.py`) is not under `src/`, only its
callers; §4.1 of the spec gives the generic IndexRepository contract. `Add`
fails with AlreadyExists when the id is indexed, else appends the image
embedding to the backing structure and extends the id maps. -/
def addImage (imageEmbed : String → Vec) (s : VectorRepo.RepoState) (p : Product) :
    Except PyErr VectorRepo.RepoState :=
  if PyDict.contains s.products p.id then
    .error (.valueError "Image already exists")
  else
    let s1 := VectorRepo.initializeIndex s
    let emb := imageEmbed (p.imageUrl.getD "")
    .ok { s1 with
      index := some (s1.index.getD [] ++ [emb])
      productIdMap := PyDict.insert s1.productIdMap s1.nextIndex p.id
      idToIndexMap := PyDict.insert s1.idToIndexMap p.id s1.nextIndex
      products := PyDict.insert s1.products p.id p
      nextIndex := s1.nextIndex + 1 }

/-- Modelled from the spec: `Update` per §4.1 fails with NotFound when the
id is absent and is otherwise a delete+reinsert realized as a full rebuild
of the index from the current in-memory product set. -/
def updateImage (imageEmbed : String → Vec) (s : VectorRepo.RepoState) (p : Product) :
    Except PyErr VectorRepo.RepoState :=
  if PyDict.contains s.products p.id then
    let products := PyDict.insert s.products p.id p
    let plist := PyDict.values products
    let vecs := plist.map fun q => imageEmbed (q.imageUrl.getD "")
    let base : VectorRepo.RepoState := ⟨some vecs, [], [], [], 0⟩
    .ok { VectorRepo.addMappings base 0 plist with nextIndex := plist.length }
  else
    .error (.valueError "Image does not exist")

end ImageRepo

namespace CaptionRepo

/-- `CaptionRepository.add_caption(product, caption=None)` as called by the
catalog: the caption comes from the `generar_descripcion_imagen` gateway,
whose outcome is the parameter `captionResult`. A falsy caption is logged
and silently skipped (`return` with no mutation). -/
def addCaption (embed : String → Vec) (captionResult : Except Unit String)
    (s : VectorRepo.RepoState) (p : Product) : Except PyErr VectorRepo.RepoState :=
  if PyDict.contains s.products p.id then
    .error (.valueError "Caption already exists")
  else
    match captionResult with
    | .error _ => .error (.runtimeError "caption gateway failure")
    | .ok caption =>
      if caption = "" then .ok s
      else
        let emb := embed caption
        let s1 := VectorRepo.initializeIndex s
        .ok { s1 with
          index := some (s1.index.getD [] ++ [emb])
          productIdMap := PyDict.insert s1.productIdMap s1.nextIndex p.id
          idToIndexMap := PyDict.insert s1.idToIndexMap p.id s1.nextIndex
          products := PyDict.insert s1.products p.id p
          nextIndex := s1.nextIndex + 1 }

/-- `CaptionRepository.create_index(products)`: after the emptiness guard it
computes the captions through the gateways and then evaluates
`generate_embeddings_batch(texts)` — but `texts` is defined nowhere in the
function (line 56), so it raises `NameError` before touching the state. -/
def createIndexC (s : VectorRepo.RepoState) (products : List Product) :
    VectorRepo.RepoState × Except PyErr Unit :=
  if products = [] then (s, .error (.valueError "Captions list cannot be empty"))
  else (s, .error (.nameError "texts"))

/-- `CaptionRepository._rebuild_index`: reset when no products; otherwise the
maps are cleared and `create_index` is called (and raises `NameError`),
leaving the cleared maps behind. -/
def rebuildC (s : VectorRepo.RepoState) : VectorRepo.RepoState × Except PyErr Unit :=
  if s.products = [] then
    ({ s with index := none, productIdMap := [], idToIndexMap := [], nextIndex := 0 },
      .ok ())
  else
    let s1 : VectorRepo.RepoState :=
      { s with productIdMap := [], idToIndexMap := [], nextIndex := 0 }
    createIndexC s1 (PyDict.values s1.products)

/-- `CaptionRepository.update_caption`. -/
def updateCaption (s : VectorRepo.RepoState) (p : Product) :
    VectorRepo.RepoState × Except PyErr Unit :=
  if PyDict.contains s.products p.id then
    rebuildC { s with products := PyDict.insert s.products p.id p }
  else
    (s, .error (.valueError "Caption does not exist"))

end CaptionRepo

namespace ProductService

/-- The four repositories owned by `ProductService`. -/
structure CatalogState where
  vector : VectorRepo.RepoState
  bm25 : Bm25Repo.Bm25State
  image : VectorRepo.RepoState
  caption : VectorRepo.RepoState
deriving Repr, DecidableEq

/-- A fresh `ProductService` with nothing loaded. -/
def emptyCatalog : CatalogState :=
  ⟨VectorRepo.emptyState, Bm25Repo.emptyBm25, VectorRepo.emptyState, VectorRepo.emptyState⟩

/-- `ProductService.create_product(id, title, description, image)`: the image
bytes are saved externally (`imageUrl` is the resulting path), the fields
are validated and stripped by `ProductCreate`, and the product is inserted
into the four repositories in order — vector, BM25, image, caption — with
no compensating deletes; an exception leaves the earlier inserts in place
(the `save_index` calls only touch disk). The text-embedding and
image-embedding gateways and the caption-gateway outcome are parameters. -/
def createProduct (embed imageEmbed : String → Vec) (captionResult : Except Unit String)
    (imageUrl : String) (st : CatalogState) (id title description : String) :
    CatalogState × Except PyErr Product :=
  if ¬ Product.validFields id title description then
    (st, .error (.valueError "Field cannot be empty"))
  else
    let product : Product := ⟨pyStrip id, pyStrip title, pyStrip description, some imageUrl⟩
    match VectorRepo.addProduct embed st.vector product with
    | .error e => (st, .error e)
    | .ok v =>
      let st1 := { st with vector := v }
      match Bm25Repo.addProductB st1.bm25 product with
      | .error e => (st1, .error e)
      | .ok b =>
        let st2 := { st1 with bm25 := b }
        match ImageRepo.addImage imageEmbed st2.image product with
        | .error e => (st2, .error e)
        | .ok i =>
          let st3 := { st2 with image := i }
          match CaptionRepo.addCaption embed captionResult st3.caption product with
          | .error e => (st3, .error e)
          | .ok c => ({ st3 with caption := c }, .ok product)

/-- The `ProductUpdate` validator condition on an optional field: provided
but blank after strip. -/
def blankOpt (o : Option String) : Bool :=
  match o with
  | some t => pyStrip t == ""
  | none => false

/-- `ProductService.update_product(id, title=None, description=None, image=None)`:
looks up the existing product; when `image is None` the local `url` is never
assigned, yet `ProductUpdate(title=title, description=description,
image_url=url)` reads it — `UnboundLocalError` before any repository is
touched. When an image is supplied, the stripped provided fields override
the prior ones and the update fans out to the four repositories (the
caption repository rebuild then raises its `NameError`). -/
def updateProductSvc (embed imageEmbed : String → Vec) (savedUrl : String)
    (st : CatalogState) (id : String) (title? description? : Option String)
    (image? : Option Unit) : CatalogState × Except PyErr Product :=
  match PyDict.get? st.vector.products id with
  | none => (st, .error (.valueError "Product does not exist"))
  | some existing =>
    match image? with
    | none => (st, .error (.unboundLocal "url"))
    | some _ =>
      if blankOpt title? then
        (st, .error (.valueError "Field cannot be empty"))
      else if blankOpt description? then
        (st, .error (.valueError "Field cannot be empty"))
      else
        let updated : Product :=
          ⟨id, (title?.map pyStrip).getD existing.title,
            (description?.map pyStrip).getD existing.description, some savedUrl⟩
        match VectorRepo.updateProduct embed st.vector updated with
        | .error e => (st, .error e)
        | .ok v =>
          let st1 := { st with vector := v }
          match Bm25Repo.updateProductB st1.bm25 updated with
          | .error e => (st1, .error e)
          | .ok b =>
            let st2 := { st1 with bm25 := b }
            match ImageRepo.updateImage imageEmbed st2.image updated with
            | .error e => (st2, .error e)
            | .ok i =>
              let st3 := { st2 with image := i }
              match CaptionRepo.updateCaption st3.caption updated with
              | (c, .error e) => ({ st3 with caption := c }, .error e)
              | (c, .ok _) => ({ st3 with caption := c }, .ok updated)

/-- `create_product("p1", ...)` on a fresh service with a caption gateway
that fails on the caption call. -/
def failedCreate : CatalogState × Except PyErr Product :=
  createProduct VectorRepo.embedConst VectorRepo.embedConst (.error ())
    "Imagenes/p1.png" emptyCatalog "p1" "Shirt" "Red shirt"

/-- **C8** (code bug): `create_product` is not all-or-nothing. With a caption
gateway that fails mid-create, the call raises, yet the text-vector, BM25
and image repositories all retain product `p1` while the caption repository
does not — a partial state across the four repositories, with no
compensating deletes anywhere in `create_product`. -/
theorem create_not_all_or_nothing :
    failedCreate.2 = .error (.runtimeError "caption gateway failure") ∧
    PyDict.contains failedCreate.1.vector.products "p1" = true ∧
    PyDict.contains failedCreate.1.bm25.products "p1" = true ∧
    PyDict.contains failedCreate.1.image.products "p1" = true ∧
    PyDict.contains failedCreate.1.caption.products "p1" = false := by
  decide

/-- A catalog holding `p1`, built by one fully successful `create_product`. -/
def demoCatalog : CatalogState :=
  (createProduct VectorRepo.embedConst VectorRepo.embedConst (.ok "a caption")
    "Imagenes/p1.png" emptyCatalog "p1" "Shirt" "Red shirt").1

/-- **C9** (code bug): a partial update that leaves the image unset does not
retain prior values — it crashes. With `p1` present, updating only the
title (image omitted) raises `UnboundLocalError` on `url`, because `url` is
assigned only inside the `if image is not None:` branch yet read
unconditionally at the `ProductUpdate(...)` call; no repository is touched
and no product is returned. -/
theorem update_unset_image_unbound_local :
    PyDict.contains demoCatalog.vector.products "p1" = true ∧
    updateProductSvc VectorRepo.embedConst VectorRepo.embedConst "u" demoCatalog "p1"
        (some "New title") none none
      = (demoCatalog, .error (.unboundLocal "url")) := by
  decide

end ProductService
